import Mathlib

/-!
Shallow embedding of `src/track_cs2.py` (nigelnuique/track_cs2).

Modelling conventions:
* A point-in-time snapshot of the OS process table is a `List Proc`; the
  list holds the processes that the Python code successfully inspects
  (processes that vanish mid-enumeration and raise
  `NoSuchProcess`/`AccessDenied`/`ZombieProcess` are skipped by the code
  and are therefore simply absent from the list).
* Timestamps are natural numbers counting seconds; the reading at loop
  iteration `i` happens at time `i * T` where `T` is the poll interval
  (the script hard-codes `time.sleep(2)`).  Scheduling slack is idealised
  to zero.
* Python's `str.lower()` is modelled on the ASCII range via
  `Char.toLower`, which is exact for every process name the script
  compares against.
* The lock file is `Option String` (`none` = file absent, `some c` =
  file present with contents `c`); `int(contents.strip())` is modelled by
  `parsePid` (strip whitespace, then parse a non-negative decimal
  numeral, `ValueError` = `none`).
* The Google-calendar insert (`create_event`) logs and swallows its own
  failures and `track_game` ignores its boolean result, so an inserted
  event is recorded here as the `(start, end)` pair that was submitted;
  whether the remote call succeeded never influences control flow.
-/

/-- One entry of the process-table snapshot: pid, executable name, and the
space-joined command line (`' '.join(proc.cmdline())`). -/
structure Proc where
  pid : Nat
  name : String
  cmdline : String
deriving DecidableEq

/-- `track_cs2.py` line 21: the allow-list constant `GAME_NAMES`
(defined in the script but never consulted by `is_cs2_running`). -/
def GAME_NAMES : List String := ["cs2.exe", "cs2", "Counter-Strike 2", "counter-strike2.exe"]

/-- ASCII `str.lower()` on a string, character by character. -/
def lowerStr (s : String) : String := String.mk (s.data.map Char.toLower)

/-- `is_cs2_running` (lines 117–143): iterates the process table and
collects every process whose lowered name equals the literal
`'cs2.exe'`; returns `true` iff that collection is non-empty. -/
def is_cs2_running (procs : List Proc) : Bool :=
  procs.any (fun p => lowerStr p.name == "cs2.exe")

/-- Spec-modelled probe, for comparison with `is_cs2_running`: the spec
says the probe "matches process name case-insensitively against a fixed
allow-list" of "a small set of known game executable names"
(`GAME_NAMES`). -/
def probeMatchesAllowList (procs : List Proc) : Bool :=
  procs.any (fun p => GAME_NAMES.any (fun g => lowerStr g == lowerStr p.name))

/-- `needle.isPrefixOf hay` on raw character lists. -/
def listStartsWith : List Char → List Char → Bool
  | [], _ => true
  | _ :: _, [] => false
  | a :: as, b :: bs => a == b && listStartsWith as bs

/-- Substring containment on raw character lists. -/
def listHasSub (needle : List Char) : List Char → Bool
  | [] => listStartsWith needle []
  | c :: rest => listStartsWith needle (c :: rest) || listHasSub needle rest

/-- Python's `needle in hay` substring test. -/
def strHasSub (hay needle : String) : Bool := listHasSub needle.data hay.data

/-- Python whitespace as stripped by `str.strip()`. -/
def isSpc (c : Char) : Bool :=
  c == ' ' || c == '\t' || c == '\n' || c == '\r' || c == '\x0b' || c == '\x0c'

/-- `str.strip()` on a character list: drop whitespace from both ends. -/
def trimChars (cs : List Char) : List Char :=
  ((cs.dropWhile isSpc).reverse.dropWhile isSpc).reverse

/-- Parse a non-empty all-digit character list as a decimal natural. -/
def parseNatFrom (acc : Nat) : List Char → Option Nat
  | [] => some acc
  | c :: rest => if c.isDigit then parseNatFrom (acc * 10 + (c.toNat - 48)) rest else none

/-- `int(contents.strip())` (line 35), modelled on non-negative decimal
numerals — the only contents the tool itself ever writes.  Any other
contents take the `ValueError` path (`none`). -/
def parsePid (contents : String) : Option Nat :=
  let cs := trimChars contents.data
  if cs.isEmpty then none else parseNatFrom 0 cs

/-- `psutil.Process(pid)` succeeds (a live process with this pid exists). -/
def pidAlive (procs : List Proc) (pid : Nat) : Bool :=
  procs.any (fun p => p.pid == pid)

/-- Line 40: a live process with this pid exists whose command line
contains `'track_cs2.py'` — i.e. the lock owner is plausibly this tool. -/
def isTrackerProcess (procs : List Proc) (pid : Nat) : Bool :=
  procs.any (fun p => p.pid == pid && strHasSub p.cmdline "track_cs2.py")

/-- `check_single_instance` (lines 30–56).  Input: process snapshot, the
caller's pid, and the lock-file state.  Output: `(ok, lockFile')`.
Mirrors the source: missing file → write own pid; unparsable contents
(`ValueError`) → remove and write own pid; recorded pid dead
(`NoSuchProcess`) → remove stale file and write own pid; recorded pid
alive but not this tool → fall through and overwrite with own pid;
recorded pid alive and identifiable as this tool → return `False`
leaving the file untouched. -/
def check_single_instance (procs : List Proc) (myPid : Nat) (lockFile : Option String) :
    Bool × Option String :=
  match lockFile with
  | none => (true, some (toString myPid))
  | some contents =>
    match parsePid contents with
    | none => (true, some (toString myPid))
    | some pid =>
      if pidAlive procs pid then
        if isTrackerProcess procs pid then (false, some contents)
        else (true, some (toString myPid))
      else (true, some (toString myPid))

/-- `cleanup_lock_file` (lines 58–64): if the lock file exists, remove
it; the file's contents are never read. -/
def cleanup_lock_file (lockFile : Option String) : Option String :=
  if lockFile.isSome then none else lockFile

/-- Line 186 / 212 / 231 / 247: minimum session duration in seconds
(`duration.total_seconds() >= 30`). -/
def MIN_SESSION_SECONDS : Nat := 30

/-- Line 200: `time.sleep(2)` — the script's fixed poll interval. -/
def POLL_INTERVAL_SECONDS : Nat := 2

/-- The loop's mutable locals (lines 158–159): `cs2_active` and
`session_start`. -/
structure TrackerState where
  cs2_active : Bool
  session_start : Option Nat
deriving DecidableEq

/-- Observable outcome of running the polling loop on a finite list of
probe readings: timestamps of session opens, `(start, end)` pairs of
session closes, `(start, end)` pairs submitted to `create_event`,
whether the loop `return`ed before exhausting the readings, and the
final loop state. -/
structure RunResult where
  opens : List Nat
  closes : List (Nat × Nat)
  events : List (Nat × Nat)
  exited : Bool
  final : TrackerState
deriving DecidableEq

/-- The polling loop of `track_game` (lines 163–200), driven by a finite
list of probe readings; reading number `i` is taken at time `i * T`.
Branch order mirrors the source: `is_running and not cs2_active` opens a
session; `not is_running and cs2_active` closes it, submits the event
only when the duration reaches `MIN_SESSION_SECONDS`, and `return`s
(lines 192–196 return in the logged, the too-short, and the
`session_start is None` cases alike); otherwise the state is stable and
the loop sleeps. -/
def trackRun (T : Nat) : Nat → TrackerState → List Bool → RunResult
  | _, st, [] => ⟨[], [], [], false, st⟩
  | i, st, r :: rest =>
    let now := i * T
    if r && !st.cs2_active then
      let res := trackRun T (i + 1) ⟨true, some now⟩ rest
      ⟨now :: res.opens, res.closes, res.events, res.exited, res.final⟩
    else if !r && st.cs2_active then
      match st.session_start with
      | some s =>
        ⟨[], [(s, now)],
          if MIN_SESSION_SECONDS ≤ now - s then [(s, now)] else [],
          true, st⟩
      | none => ⟨[], [], [], true, st⟩
    else
      trackRun T (i + 1) st rest

/-- `track_game`'s loop started from its initial state
(`cs2_active = False`, `session_start = None`, first check at time 0). -/
def runTracker (T : Nat) (rs : List Bool) : RunResult :=
  trackRun T 0 ⟨false, none⟩ rs

/-- A run that is interrupted (`KeyboardInterrupt`, lines 223–236) after
the readings in `rs` have been processed — i.e. during the sleep that
follows the last reading, at time `rs.length * T`.  If the loop already
`return`ed nothing more happens; otherwise the handler closes the open
session (submitting it only when it meets the minimum duration).  Either
way the `finally` block (lines 253–255) removes the lock file. -/
def runWithInterrupt (T : Nat) (rs : List Bool) (lockFile : Option String) :
    RunResult × Option String :=
  let res := runTracker T rs
  if res.exited then
    (res, cleanup_lock_file lockFile)
  else
    match res.final.cs2_active, res.final.session_start with
    | true, some s =>
      let now := rs.length * T
      (⟨res.opens, res.closes ++ [(s, now)],
        res.events ++ (if MIN_SESSION_SECONDS ≤ now - s then [(s, now)] else []),
        res.exited, res.final⟩,
       cleanup_lock_file lockFile)
    | _, _ => (res, cleanup_lock_file lockFile)

/-- Number of `false → true` transitions of a reading sequence, the
previous value being `prev`. -/
def risingFrom : Bool → List Bool → Nat
  | _, [] => 0
  | prev, r :: rest => (if r && !prev then 1 else 0) + risingFrom r rest

/-- Number of `true → false` transitions of a reading sequence, the
previous value being `prev`. -/
def fallingFrom : Bool → List Bool → Nat
  | _, [] => 0
  | prev, r :: rest => (if !r && prev then 1 else 0) + fallingFrom r rest

/-- `false → true` edges of a reading sequence (the tracker starts in the
idle state, so an initial `true` reading counts as an edge). -/
def risingEdges (rs : List Bool) : Nat := risingFrom false rs

/-- `true → false` edges of a reading sequence. -/
def fallingEdges (rs : List Bool) : Nat := fallingFrom false rs

/-! ### Helper lemmas about the polling loop -/

/-- Every event the loop submits is a closed session that passed the
minimum-duration test, and every qualifying closed session is
submitted: the submitted events are exactly the filtered closes. -/
lemma trackRun_events_eq_filter (T : Nat) (rs : List Bool) :
    ∀ i st, (trackRun T i st rs).events
      = (trackRun T i st rs).closes.filter
          (fun q => decide (MIN_SESSION_SECONDS ≤ q.2 - q.1)) := by
  induction rs with
  | nil => intro i st; simp [trackRun]
  | cons r rest ih =>
    intro i st
    by_cases hopen : (r && !st.cs2_active) = true
    · simp only [trackRun, hopen, if_pos rfl]
      simpa using ih (i + 1) ⟨true, some (i * T)⟩
    · by_cases hclose : (!r && st.cs2_active) = true
      · cases hs : st.session_start with
        | none => simp [trackRun, hopen, hclose, hs]
        | some s =>
          simp only [trackRun, hopen, hclose, hs, if_neg, if_pos,
            Bool.not_eq_true]
          by_cases hd : MIN_SESSION_SECONDS ≤ i * T - s <;>
            simp [hd]
      · simp only [trackRun, hopen, hclose, if_neg, Bool.not_eq_true]
        exact ih (i + 1) st

/-- If the loop consumed all readings without returning, no session was
closed and nothing was submitted. -/
lemma trackRun_not_exited (T : Nat) (rs : List Bool) :
    ∀ i st, (trackRun T i st rs).exited = false →
      (trackRun T i st rs).closes = [] ∧ (trackRun T i st rs).events = [] := by
  induction rs with
  | nil => intro i st _; simp [trackRun]
  | cons r rest ih =>
    intro i st h
    by_cases hopen : (r && !st.cs2_active) = true
    · simp only [trackRun, hopen, if_pos rfl] at h ⊢
      exact ih (i + 1) ⟨true, some (i * T)⟩ h
    · by_cases hclose : (!r && st.cs2_active) = true
      · cases hs : st.session_start with
        | none => simp [trackRun, hopen, hclose, hs] at h
        | some s => simp [trackRun, hopen, hclose, hs] at h
      · simp only [trackRun, hopen, hclose, if_neg, Bool.not_eq_true] at h ⊢
        exact ih (i + 1) st h

/-- From an active state the loop never opens another session, and it
closes exactly one session iff the readings ever drop to `false`. -/
lemma trackRun_active_counts (T : Nat) (rs : List Bool) :
    ∀ i s, (trackRun T i ⟨true, some s⟩ rs).opens.length = 0
      ∧ (trackRun T i ⟨true, some s⟩ rs).closes.length = min (fallingFrom true rs) 1 := by
  induction rs with
  | nil => intro i s; simp [trackRun, fallingFrom]
  | cons r rest ih =>
    intro i s
    cases r with
    | true =>
      simp only [trackRun, fallingFrom, Bool.not_true, Bool.and_false,
        Bool.false_and, Bool.and_self, if_neg, Bool.true_and]
      simpa using ih (i + 1) s
    | false =>
      simp [trackRun, fallingFrom]

/-- From the idle start state the loop opens a session iff the readings
ever rise to `true`, at most once, and closes a session iff they later
fall back to `false`, at most once (the loop returns at the first
close). -/
lemma trackRun_idle_counts (T : Nat) (rs : List Bool) :
    ∀ i, (trackRun T i ⟨false, none⟩ rs).opens.length = min (risingFrom false rs) 1
      ∧ (trackRun T i ⟨false, none⟩ rs).closes.length = min (fallingFrom false rs) 1 := by
  induction rs with
  | nil => intro i; simp [trackRun, risingFrom, fallingFrom]
  | cons r rest ih =>
    intro i
    cases r with
    | true =>
      have h := trackRun_active_counts T rest (i + 1) (i * T)
      simp only [trackRun, Bool.not_false, Bool.and_true, Bool.true_and,
        if_pos, risingFrom, fallingFrom, Bool.not_true, Bool.false_and]
      constructor
      · simp [h.1]
      · simp [h.2]
    | false =>
      simp only [trackRun, Bool.false_and, Bool.not_false, Bool.and_false,
        if_neg, risingFrom, fallingFrom, Bool.true_and, Bool.not_true,
        Bool.false_and]
      simpa using ih (i + 1)

/-- From an active state the loop returns early iff a `false` reading
arrives. -/
lemma trackRun_active_exited (T : Nat) (rs : List Bool) :
    ∀ i s, (trackRun T i ⟨true, some s⟩ rs).exited = true ↔ 1 ≤ fallingFrom true rs := by
  induction rs with
  | nil => intro i s; simp [trackRun, fallingFrom]
  | cons r rest ih =>
    intro i s
    cases r with
    | true =>
      simp only [trackRun, Bool.not_true, Bool.and_false, Bool.false_and,
        if_neg, fallingFrom, Bool.true_and]
      simpa using ih (i + 1) s
    | false => simp [trackRun, fallingFrom]

/-- From the idle start state the loop returns early iff the readings
contain a `true → false` edge. -/
lemma trackRun_idle_exited (T : Nat) (rs : List Bool) :
    ∀ i, (trackRun T i ⟨false, none⟩ rs).exited = true ↔ 1 ≤ fallingFrom false rs := by
  induction rs with
  | nil => intro i; simp [trackRun, fallingFrom]
  | cons r rest ih =>
    intro i
    cases r with
    | true =>
      simp only [trackRun, Bool.not_false, Bool.and_true, Bool.true_and,
        if_pos, fallingFrom, Bool.not_true, Bool.false_and]
      simpa using trackRun_active_exited T rest (i + 1) (i * T)
    | false =>
      simp only [trackRun, Bool.false_and, Bool.and_false, if_neg,
        fallingFrom, Bool.not_false, Bool.true_and]
      simpa using ih (i + 1)

/-- Once the loop has returned, feeding it further readings changes
nothing: the run on `rs1 ++ rs2` coincides with the run on `rs1`. -/
lemma trackRun_append_of_exited (T : Nat) (rs1 : List Bool) :
    ∀ rs2 i st, (trackRun T i st rs1).exited = true →
      trackRun T i st (rs1 ++ rs2) = trackRun T i st rs1 := by
  induction rs1 with
  | nil => intro rs2 i st h; simp [trackRun] at h
  | cons r rest ih =>
    intro rs2 i st h
    by_cases hopen : (r && !st.cs2_active) = true
    · have h' : (trackRun T (i + 1) ⟨true, some (i * T)⟩ rest).exited = true := by
        simpa [trackRun, hopen] using h
      have hrw := ih rs2 (i + 1) ⟨true, some (i * T)⟩ h'
      simp [List.cons_append, trackRun, hopen, hrw]
    · by_cases hclose : (!r && st.cs2_active) = true
      · cases hs : st.session_start with
        | none => simp [trackRun, hopen, hclose, hs]
        | some s => simp [trackRun, hopen, hclose, hs]
      · simp only [List.cons_append, trackRun, hopen, hclose, if_neg,
          Bool.not_eq_true] at h ⊢
        exact ih rs2 (i + 1) st h

/-! ### Claim theorems -/

/-- C10: `cleanup_lock_file` removes the lock file unconditionally
whenever it exists — whatever its contents, so even when the file was
rewritten by and is owned by a different process — and is a no-op when
the file is absent; the recorded pid is never consulted. -/
theorem cleanup_removes_lock_unconditionally :
    (∀ contents : String, cleanup_lock_file (some contents) = none)
    ∧ cleanup_lock_file none = none :=
  ⟨fun _ => rfl, rfl⟩

/-- C2 counterexample: a live process named `cs2` — the second entry of
the `GAME_NAMES` allow-list — matches the allow-list but is not detected
by `is_cs2_running`, which compares only against the single literal
`'cs2.exe'`; so the probe is not the allow-list matcher the claim
describes. -/
theorem probe_ignores_allow_list :
    is_cs2_running [⟨7, "cs2", "cs2"⟩] = false
    ∧ probeMatchesAllowList [⟨7, "cs2", "cs2"⟩] = true := by
  exact ⟨by decide, by decide⟩

/-- C2 amended: the probe returns `true` iff some live process's name
lower-cases to exactly `"cs2.exe"`; the `GAME_NAMES` allow-list is
declared but never consulted. -/
theorem probe_matches_single_name (procs : List Proc) :
    is_cs2_running procs = true ↔ ∃ p ∈ procs, lowerStr p.name = "cs2.exe" := by
  simp [is_cs2_running, List.any_eq_true]

/-- C6: when the lock file records a pid belonging to a live process
whose command line marks it as this same tool, `check_single_instance`
fails (returns `false`, upon which the caller exits) and the lock file is
left unchanged, still holding the first process's record. -/
theorem acquire_fails_when_owner_alive (procs : List Proc) (myPid : Nat)
    (contents : String) (pid : Nat)
    (hparse : parsePid contents = some pid)
    (howner : isTrackerProcess procs pid = true) :
    check_single_instance procs myPid (some contents) = (false, some contents) := by
  have halive : pidAlive procs pid = true := by
    simp only [isTrackerProcess, List.any_eq_true, Bool.and_eq_true] at howner
    obtain ⟨p, hp, h1, _⟩ := howner
    simp only [pidAlive, List.any_eq_true]
    exact ⟨p, hp, h1⟩
  simp [check_single_instance, hparse, halive, howner]

/-- Witness for C6: a live pid-42 process running `track_cs2.py` holds
the lock; a second caller with pid 99 is refused and the file still says
`42`. -/
theorem acquire_fails_when_owner_alive_witness :
    check_single_instance [⟨42, "python", "python track_cs2.py"⟩] 99 (some "42")
      = (false, some "42") :=
  acquire_fails_when_owner_alive [⟨42, "python", "python track_cs2.py"⟩] 99
    "42" 42 (by decide) (by decide)

/-- C7: when the lock file records a pid no live process bears, the call
succeeds and the lock file afterwards contains the caller's pid. -/
theorem acquire_succeeds_on_dead_pid (procs : List Proc) (myPid : Nat)
    (contents : String) (pid : Nat)
    (hparse : parsePid contents = some pid)
    (hdead : ∀ p ∈ procs, p.pid ≠ pid) :
    check_single_instance procs myPid (some contents) = (true, some (toString myPid)) := by
  have halive : pidAlive procs pid = false := by
    simp only [pidAlive, List.any_eq_false]
    intro p hp
    simpa using hdead p hp
  simp [check_single_instance, hparse, halive]

/-- Witness for C7: the lock file says `42` but no process with pid 42
is alive; a caller with pid 7 acquires the lock and the file now holds
`7`. -/
theorem acquire_succeeds_on_dead_pid_witness :
    check_single_instance [⟨9, "bash", "bash"⟩] 7 (some "42") = (true, some (toString 7)) :=
  acquire_succeeds_on_dead_pid [⟨9, "bash", "bash"⟩] 7 "42" 42 (by decide) (by decide)

/-- C1 counterexample: at the script's fixed 2-second poll interval, the
probe sequence `[false, true, true, false]` yields a session of
`2 * T = 4` seconds — below the 30-second minimum — so the tracker
records no calendar event at all, not exactly one. -/
theorem short_session_records_no_event :
    ¬ (runTracker POLL_INTERVAL_SECONDS [false, true, true, false]).events.length = 1 := by
  decide

/-- C1 amended: for probe readings `[false, true, true, false]` at poll
interval `T` the tracker closes exactly one session, spanning
`2 * T` seconds (start `T`, end `3 * T`); a calendar event is recorded
for it only when `2 * T` meets the 30-second minimum, and at the
script's fixed 2-second interval no event is recorded. -/
theorem one_session_spanning_two_intervals (T : Nat) :
    (runTracker T [false, true, true, false]).closes = [(T, 3 * T)]
    ∧ (runTracker T [false, true, true, false]).events
        = (if 30 ≤ 2 * T then [(T, 3 * T)] else [])
    ∧ (runTracker POLL_INTERVAL_SECONDS [false, true, true, false]).events = [] := by
  have h2 : 3 * T - 1 * T = 2 * T := by omega
  have h2' : 3 * T - T = 2 * T := by omega
  refine ⟨?_, ?_, by decide⟩ <;>
    simp [runTracker, trackRun, MIN_SESSION_SECONDS, h2, h2', one_mul]

/-- C3: for a closed session, the calendar insert is never invoked when
the duration is below the 30-second minimum, and is invoked exactly once
when the duration meets it. -/
theorem min_duration_filter_on_close (T : Nat) (rs : List Bool) (s e : Nat)
    (h : (runTracker T rs).closes = [(s, e)]) :
    (e - s < MIN_SESSION_SECONDS → (runTracker T rs).events = [])
    ∧ (MIN_SESSION_SECONDS ≤ e - s → (runTracker T rs).events = [(s, e)]) := by
  have hf : (runTracker T rs).events
      = (runTracker T rs).closes.filter
          (fun q => decide (MIN_SESSION_SECONDS ≤ q.2 - q.1)) := by
    simpa [runTracker] using trackRun_events_eq_filter T rs 0 ⟨false, none⟩
  rw [hf, h]
  constructor
  · intro hlt
    simp [List.filter, Nat.not_le.mpr hlt]
  · intro hge
    simp [List.filter, hge]

/-- Witness for C3: a 31-second session (poll interval 31, one reading
apart) is inserted exactly once; a 2-second session is never inserted. -/
theorem min_duration_filter_on_close_witness :
    (runTracker 31 [false, true, false]).events = [(31, 62)]
    ∧ (runTracker 2 [false, true, false]).events = [] :=
  ⟨(min_duration_filter_on_close 31 [false, true, false] 31 62 (by decide)).2 (by decide),
   (min_duration_filter_on_close 2 [false, true, false] 2 4 (by decide)).1 (by decide)⟩

/-- C4 counterexample: for readings `[true, false, true]` there are two
`false → true` edges but only one session is ever opened, because the
loop returns at the first close and never processes the second rising
edge — so sessions are not opened "exactly once per false-to-true
edge" over the whole sequence. -/
theorem second_rising_edge_opens_nothing :
    ¬ ((runTracker 1 [true, false, true]).opens.length
        = risingEdges [true, false, true]) := by
  decide

/-- C4 amended: no session is ever double-opened or double-closed; a
session opens exactly once per `false → true` edge and closes exactly
once per `true → false` edge up to the loop's return at the first close,
after which no further edges are processed — over any whole sequence the
number of opens is `min(#rising edges, 1)` and the number of closes is
`min(#falling edges, 1)`. -/
theorem session_open_close_counts (T : Nat) (rs : List Bool) :
    (runTracker T rs).opens.length = min (risingEdges rs) 1
    ∧ (runTracker T rs).closes.length = min (fallingEdges rs) 1 := by
  simpa [runTracker, risingEdges, fallingEdges] using trackRun_idle_counts T rs 0

/-- C5: over a whole run — polling loop, interrupt handler included —
the events submitted to the calendar are exactly the closed sessions
passing the minimum-duration filter, each submitted once, and in total
at most one event is ever submitted. -/
theorem session_submitted_at_most_once (T : Nat) (rs : List Bool) (lock : Option String) :
    ((runWithInterrupt T rs lock).1.events
      = (runWithInterrupt T rs lock).1.closes.filter
          (fun q => decide (MIN_SESSION_SECONDS ≤ q.2 - q.1)))
    ∧ (runWithInterrupt T rs lock).1.events.length ≤ 1 := by
  have hf : (runTracker T rs).events
      = (runTracker T rs).closes.filter
          (fun q => decide (MIN_SESSION_SECONDS ≤ q.2 - q.1)) := by
    simpa [runTracker] using trackRun_events_eq_filter T rs 0 ⟨false, none⟩
  have hcl : (runTracker T rs).closes.length ≤ 1 := by
    have := (trackRun_idle_counts T rs 0).2
    simp only [runTracker]
    omega
  by_cases hex : (runTracker T rs).exited = true
  · refine ⟨by simpa [runWithInterrupt, hex] using hf, ?_⟩
    have : (runTracker T rs).events.length ≤ (runTracker T rs).closes.length := by
      rw [hf]; exact List.length_filter_le _ _
    simp only [runWithInterrupt, hex, if_pos]
    omega
  · have hex' : (runTracker T rs).exited = false := by
      simpa using hex
    obtain ⟨hcl0, hev0⟩ := trackRun_not_exited T rs 0 ⟨false, none⟩
      (by simpa [runTracker] using hex')
    have hcl0' : (runTracker T rs).closes = [] := by simpa [runTracker] using hcl0
    have hev0' : (runTracker T rs).events = [] := by simpa [runTracker] using hev0
    cases hact : (runTracker T rs).final.cs2_active with
    | false =>
      simp [runWithInterrupt, hex', hact, hev0', hcl0']
    | true =>
      cases hss : (runTracker T rs).final.session_start with
      | none => simp [runWithInterrupt, hex', hact, hss, hev0', hcl0']
      | some s =>
        simp only [runWithInterrupt, hex', hact, hss, Bool.false_eq_true,
          if_neg, hev0', hcl0', List.nil_append]
        by_cases hd : MIN_SESSION_SECONDS ≤ rs.length * T - s <;>
          simp [hd]

/-- C9: the loop returns exactly when a session closes — the first
`true → false` edge — whatever the session's duration or the insert's
outcome (the insert's boolean result is ignored by the loop), and once
it has returned, any further readings leave the run unchanged: a second
session is never awaited. -/
theorem loop_exits_after_first_close (T : Nat) (rs rs2 : List Bool) :
    ((runTracker T rs).exited = true ↔ 1 ≤ fallingEdges rs)
    ∧ ((runTracker T rs).exited = true →
        runTracker T (rs ++ rs2) = runTracker T rs) := by
  constructor
  · simpa [runTracker, fallingEdges] using trackRun_idle_exited T rs 0
  · intro h
    simpa [runTracker] using
      trackRun_append_of_exited T rs rs2 0 ⟨false, none⟩ (by simpa [runTracker] using h)

/-- Witness for C9: the run on `[true, false]` exits at the close, and
appending further readings `[true, true, false]` changes nothing. -/
theorem loop_exits_after_first_close_witness :
    ((runTracker 1 [true, false]).exited = true ↔ 1 ≤ fallingEdges [true, false])
    ∧ runTracker 1 ([true, false] ++ [true, true, false]) = runTracker 1 [true, false] :=
  ⟨(loop_exits_after_first_close 1 [true, false] [true, true, false]).1,
   (loop_exits_after_first_close 1 [true, false] [true, true, false]).2 (by decide)⟩

/-- C8: if an interrupt arrives while a session is open (the loop has
not returned and the state is active with start time `s`), the handler
records exactly one calendar event for that session when its duration
meets the 30-second minimum and none otherwise, and after the `finally`
cleanup the lock file no longer exists. -/
theorem interrupt_records_open_session_and_releases_lock (T : Nat) (rs : List Bool)
    (lock : Option String) (s : Nat)
    (hex : (runTracker T rs).exited = false)
    (hst : (runTracker T rs).final = ⟨true, some s⟩) :
    ((runWithInterrupt T rs lock).1.events
      = if MIN_SESSION_SECONDS ≤ rs.length * T - s
          then [(s, rs.length * T)] else [])
    ∧ (runWithInterrupt T rs lock).2 = none := by
  have hev0' : (runTracker T rs).events = [] := by
    simpa [runTracker] using
      (trackRun_not_exited T rs 0 ⟨false, none⟩ (by simpa [runTracker] using hex)).2
  have hclean : cleanup_lock_file lock = none := by
    cases lock <;> rfl
  constructor
  · simp [runWithInterrupt, hex, hst, hev0']
  · by_cases hd : MIN_SESSION_SECONDS ≤ rs.length * T - s <;>
      simp [runWithInterrupt, hex, hst, hclean]

/-- Witness for C8: interrupt after readings `[false, true]` at poll
interval 31 — the open session started at 31, the interrupt closes it at
62, the 31-second duration qualifies, one event is recorded and the lock
file is gone. -/
theorem interrupt_records_open_session_and_releases_lock_witness :
    ((runWithInterrupt 31 [false, true] (some "5")).1.events
      = if MIN_SESSION_SECONDS ≤ [false, true].length * 31 - 31
          then [(31, [false, true].length * 31)] else [])
    ∧ (runWithInterrupt 31 [false, true] (some "5")).2 = none :=
  interrupt_records_open_session_and_releases_lock 31 [false, true] (some "5") 31
    (by decide) (by decide)
